import Mathlib

/-!
Verification of the download-orchestration core of bandsnatch
(`src/cmds/run.rs`).  The dispatch loop, queue construction, date
filtering and setup sequencing are translated directly from the source;
the `cache`, `util::WorkQueue` and `api` modules are not part of the
provided sources, so the pieces of them that the theorems need are
modelled from the specification and marked as such.
-/

namespace Bandsnatch

/-- A purchase entry as consumed by `run.rs`: the `info` half of a
`(id, info)` pair from `get_download_urls`. `purchased` is the optional
raw purchase-date string. -/
structure TrackInfo where
  url : String
  purchased : Option String
deriving DecidableEq, Repr

/-- Modelled from the spec: `DigitalItem` lives in the `api` module,
which is not among the provided sources.  The spec lists its fields as
title, artist, release year, single flag and an optional mapping of
audio-format names to download references; `run.rs` reads `downloads`,
`title`, `artist`, `is_single()` and `release_year()`. -/
structure DigitalItem where
  title : String
  artist : String
  release_year : String
  is_single : Bool
  downloads : Option (List (String × String))
deriving DecidableEq, Repr

/-- Result of `api.get_digital_item`: `Ok(Some(item))`, `Ok(None)` or
`Err(_)` in the source. -/
inductive FetchResult where
  | found (item : DigitalItem)
  | notFound
  | error
deriving DecidableEq, Repr

/-- Modelled from the spec: the `cache` module is not among the provided
sources.  The spec describes the cache as an append-only file of
`id: description` records with at most one record per id, `content()`
returning the known ids, `add` appending unconditionally and
`add_if_missing` appending only when no record for the id exists. -/
abbrev Cache := List (String × String)

/-- Modelled from the spec: `content()` returns the complete set of known
ids in the persisted store. -/
def Cache.content (c : Cache) : List String :=
  c.map Prod.fst

/-- Modelled from the spec: `add(id, description)` appends a record
unconditionally. -/
def Cache.add (c : Cache) (id desc : String) : Cache :=
  c ++ [(id, desc)]

/-- Modelled from the spec: `add_if_missing(id, description)` appends a
record only if no record for that id currently exists. -/
def Cache.add_if_missing (c : Cache) (id desc : String) : Cache :=
  if id ∈ c.content then c else c ++ [(id, desc)]

/-- The function `is_before_filter` from `run.rs`: returns the purchase date exactly
when an `after` cutoff is configured, the entry has a purchase-date
string, that string parses, and the parsed date is strictly earlier than
the cutoff.  Dates are modelled as integers; the chrono parser
`parse_purchased_date` (an external-crate call) is abstracted as the
`parse` argument. -/
def is_before_filter (parse : String → Option Int) (after : Option Int)
    (purchased : Option String) : Option Int :=
  match after with
  | none => none
  | some afterDate =>
    match purchased with
    | none => none
    | some s =>
      match parse s with
      | none => none
      | some purchasedDate =>
        if purchasedDate < afterDate then some purchasedDate else none

/-- The observable calls a worker makes while handling one item, in
program order: metadata fetch, cache writes, warning logs, directory
creation, content download, dry-run result push. -/
inductive Ev where
  | metaFetch
  | cacheAddIfMissing (id desc : String)
  | cacheAdd (id desc : String)
  | warnLog
  | createDir
  | download
  | dryRunPush (line : String)
deriving DecidableEq, Repr

/-- Per-item oracle for the external collaborators: what
`api.get_digital_item` returns, whether `fs::create_dir_all` and
`api.download_item` succeed, and whether the Results Collector mutex is
poisoned when this worker locks it. -/
structure ItemEnv where
  fetch : FetchResult
  createDirOk : Bool
  downloadOk : Bool
  resultsPoisoned : Bool
deriving DecidableEq, Repr

/-- Outcome of one iteration of the dispatch loop: the calls made, the
cache afterwards, the lines pushed to the Results Collector, and whether
the worker panicked. -/
structure StepResult where
  events : List Ev
  cache : Cache
  dryLines : List String
  panicked : Bool
deriving DecidableEq, Repr

/-- The success-branch cache description,
`format!("{} ({}) by {}", item.title, item.release_year(), item.artist)`. -/
def successDesc (item : DigitalItem) : String :=
  item.title ++ " (" ++ item.release_year ++ ") by " ++ item.artist

/-- The dry-run result line, `format!("{id}, {} - {}", item.title, item.artist)`. -/
def dryRunLine (id : String) (item : DigitalItem) : String :=
  id ++ ", " ++ item.title ++ " - " ++ item.artist

/-- One iteration of the dispatch loop of `run.rs` (lines 177–239), for
the item `(id, info)` pulled from the queue: the `--after` filter check,
the metadata fetch and its three outcomes, the no-downloads check, the
dry-run branch (push or panic on poisoning), and the normal path of
directory creation, download and success record. -/
def processItem (parse : String → Option Int) (after : Option Int)
    (dryRun : Bool) (env : ItemEnv) (c : Cache) (id : String)
    (info : TrackInfo) : StepResult :=
  match is_before_filter parse after info.purchased with
  | some _ =>
    { events := [.cacheAddIfMissing id "Skipped (--after filter)"],
      cache := c.add_if_missing id "Skipped (--after filter)",
      dryLines := [], panicked := false }
  | none =>
    match env.fetch with
    | .error =>
      { events := [.metaFetch], cache := c, dryLines := [], panicked := false }
    | .notFound =>
      { events := [.metaFetch, .warnLog, .cacheAdd id "UNKNOWN"],
        cache := c.add id "UNKNOWN", dryLines := [], panicked := false }
    | .found item =>
      if item.downloads.isNone then
        { events := [.metaFetch, .warnLog, .cacheAdd id "No downloads"],
          cache := c.add id "No downloads", dryLines := [], panicked := false }
      else if dryRun then
        if env.resultsPoisoned then
          { events := [.metaFetch], cache := c, dryLines := [], panicked := true }
        else
          { events := [.metaFetch, .dryRunPush (dryRunLine id item)],
            cache := c, dryLines := [dryRunLine id item], panicked := false }
      else if env.createDirOk = false then
        { events := [.metaFetch, .createDir, .warnLog], cache := c,
          dryLines := [], panicked := false }
      else if env.downloadOk = false then
        { events := [.metaFetch, .createDir, .download, .warnLog], cache := c,
          dryLines := [], panicked := false }
      else
        { events := [.metaFetch, .createDir, .download,
                      .cacheAddIfMissing id (successDesc item)],
          cache := c.add_if_missing id (successDesc item),
          dryLines := [], panicked := false }

/-- The whole loop of one worker: process the queued items in order, stopping
only when a panic escapes (a Rust `panic!` unwinds out of the loop). -/
def runWorker (parse : String → Option Int) (after : Option Int)
    (dryRun : Bool) : Cache → List (String × TrackInfo × ItemEnv) → StepResult
  | c, [] => { events := [], cache := c, dryLines := [], panicked := false }
  | c, (id, info, env) :: rest =>
    let r := processItem parse after dryRun env c id info
    if r.panicked then r
    else
      let r2 := runWorker parse after dryRun r.cache rest
      { events := r.events ++ r2.events, cache := r2.cache,
        dryLines := r.dryLines ++ r2.dryLines, panicked := r2.panicked }

/-- The value `usize::MAX` on a 64-bit target, the effective limit when
`args.limit` is `None` (`args.limit.unwrap_or(usize::MAX)`). -/
def USIZE_MAX : Nat := 2 ^ 64 - 1

/-- Queue construction from `run.rs` lines 145–154:
`download_urls.into_iter().filter(|(x, _)| args.force || !cache_content.contains(x)).take(limit)`
with `limit = args.limit.unwrap_or(usize::MAX)`. -/
def buildItems (force : Bool) (cacheContent : List String)
    (limit : Option Nat) (downloadUrls : List (String × TrackInfo)) :
    List (String × TrackInfo) :=
  (downloadUrls.filter
      (fun p => force || !(cacheContent.contains p.1))).take
    (limit.getD USIZE_MAX)

/-- The setup steps of `command` that follow the output-root check, in
source order: opening the cache, listing purchases, building the queue. -/
inductive SetupStep where
  | createRootDir
  | openCache
  | listPurchases
  | buildQueue
deriving DecidableEq, Repr

/-- The startup sequencing of `command` (lines 122–162).  The input is
the `fs::metadata` result on the output root (`Some(is_dir)` or `None`):
an existing directory is used as-is, an existing non-directory is a
fatal `exit(1)` before anything else runs, and a missing path is created
with `fs::create_dir_all`.  Returns whether the process exits fatally,
and the setup steps that run. -/
def setup (rootMeta : Option Bool) : Bool × List SetupStep :=
  match rootMeta with
  | some true => (false, [.openCache, .listPurchases, .buildQueue])
  | some false => (true, [])
  | none => (false, [.createRootDir, .openCache, .listPurchases, .buildQueue])

/-- Modelled from the spec: `util::WorkQueue` is not among the provided
sources.  `get_work()` atomically removes and returns the first
remaining element, or reports empty immediately; every call runs inside
one mutual-exclusion critical section, so any concurrent execution
linearises to a sequence of such pops. -/
def getWork : List α → Option α × List α
  | [] => (none, [])
  | x :: xs => (some x, xs)

/-- Modelled from the spec: the linearisation of a concurrent run against
one shared `WorkQueue` — each caller in the (arbitrary interleaving)
sequence performs one `get_work()` on the shared state. -/
def runCalls (callers : List Nat) (q : List α) : List (Nat × Option α) :=
  match callers with
  | [] => []
  | caller :: rest =>
    let (r, q2) := getWork q
    (caller, r) :: runCalls rest q2

/-- Every item of the constructed queue survived the filter predicate. -/
theorem mem_buildItems_filter (force : Bool) (cc : List String)
    (limit : Option Nat) (urls : List (String × TrackInfo))
    (p : String × TrackInfo) (hp : p ∈ buildItems force cc limit urls) :
    (force || !(cc.contains p.1)) = true := by
  have h1 := List.mem_of_mem_take hp
  exact (List.mem_filter.mp h1).2

/-- The constructed queue is a sublist of the purchase list, so the
original relative order is preserved. -/
theorem buildItems_sublist (force : Bool) (cc : List String)
    (limit : Option Nat) (urls : List (String × TrackInfo)) :
    List.Sublist (buildItems force cc limit urls) urls :=
  (List.take_sublist _ _).trans (List.filter_sublist _)

/-- C2: with the force flag off, every purchase entry whose id is in the
startup cache snapshot is dropped before queue construction and never
reaches the dispatch loop, the surviving entries keep their original
relative order, and for a cache `{B}` and purchases `[A, B, C]` the
queue is `[A, C]`. -/
theorem cache_exclusion_drops_cached (cc : List String) (limit : Option Nat)
    (urls : List (String × TrackInfo)) :
    (∀ p ∈ buildItems false cc limit urls, cc.contains p.1 = false) ∧
    List.Sublist (buildItems false cc limit urls) urls ∧
    buildItems false ["B"] none
        [("A", ⟨"uA", none⟩), ("B", ⟨"uB", none⟩), ("C", ⟨"uC", none⟩)]
      = [("A", ⟨"uA", none⟩), ("C", ⟨"uC", none⟩)] := by
  refine ⟨?_, buildItems_sublist false cc limit urls, by decide⟩
  intro p hp
  have h := mem_buildItems_filter false cc limit urls p hp
  simpa using h

/-- C2 witness at a concrete input. -/
theorem cache_exclusion_drops_cached_witness :
    buildItems false ["B"] none
        [("A", ⟨"uA", none⟩), ("B", ⟨"uB", none⟩), ("C", ⟨"uC", none⟩)]
      = [("A", ⟨"uA", none⟩), ("C", ⟨"uC", none⟩)] :=
  (cache_exclusion_drops_cached ["B"] none
    [("A", ⟨"uA", none⟩), ("B", ⟨"uB", none⟩), ("C", ⟨"uC", none⟩)]).2.2

/-- C4: with a configured limit `K` smaller than the length of the
post-exclusion list, the constructed queue is exactly the first `K`
elements of that list, in order: a prefix take applied after
cache-membership exclusion. -/
theorem limit_takes_first_K (force : Bool) (cc : List String) (K : Nat)
    (urls : List (String × TrackInfo))
    (h : K < (urls.filter (fun p => force || !(cc.contains p.1))).length) :
    buildItems force cc (some K) urls
        = (urls.filter (fun p => force || !(cc.contains p.1))).take K ∧
    (buildItems force cc (some K) urls).length = K ∧
    (urls.filter (fun p => force || !(cc.contains p.1))).take K ++
        (urls.filter (fun p => force || !(cc.contains p.1))).drop K
      = urls.filter (fun p => force || !(cc.contains p.1)) := by
  refine ⟨rfl, ?_, List.take_append_drop _ _⟩
  simp only [buildItems, Option.getD_some, List.length_take]
  omega

/-- C4 witness: limit 1 on a two-element post-exclusion list. -/
theorem limit_takes_first_K_witness :
    buildItems false [] (some 1) [("A", ⟨"uA", none⟩), ("B", ⟨"uB", none⟩)]
      = [("A", ⟨"uA", none⟩)] ∧
    (buildItems false [] (some 1)
        [("A", ⟨"uA", none⟩), ("B", ⟨"uB", none⟩)]).length = 1 := by
  have h := limit_takes_first_K false [] 1
    [("A", ⟨"uA", none⟩), ("B", ⟨"uB", none⟩)] (by decide)
  exact ⟨by rw [h.1]; decide, h.2.1⟩

/-- C6: with the force flag set, cache-membership exclusion is bypassed
(the queue is the purchase list itself, up to the limit, whatever the
cache holds), and the skip-branch and success-branch
cache updates go through `add_if_missing`, which is idempotent, so
re-processing an already-recorded id leaves the cache unchanged. -/
theorem force_bypasses_exclusion (cc : List String) (limit : Option Nat)
    (urls : List (String × TrackInfo)) (c : Cache) (id d1 d2 : String) :
    buildItems true cc limit urls = urls.take (limit.getD USIZE_MAX) ∧
    (c.add_if_missing id d1).add_if_missing id d2 = c.add_if_missing id d1 ∧
    (∀ parse after env c2 id2 info d,
      is_before_filter parse after info.purchased = some d →
      (processItem parse after false env c2 id2 info).cache
        = Cache.add_if_missing c2 id2 "Skipped (--after filter)") ∧
    (∀ parse after env c2 id2 info item,
      is_before_filter parse after info.purchased = none →
      env.fetch = FetchResult.found item → item.downloads.isSome = true →
      env.createDirOk = true → env.downloadOk = true →
      (processItem parse after false env c2 id2 info).cache
        = Cache.add_if_missing c2 id2 (successDesc item)) := by
  refine ⟨by simp [buildItems], ?_, ?_, ?_⟩
  · unfold Cache.add_if_missing
    by_cases h : id ∈ c.content
    · rw [if_pos h, if_pos h]
    · rw [if_neg h]
      have h2 : id ∈ (c ++ [(id, d1)]).content := by simp [Cache.content]
      rw [if_pos h2]
  · intro parse after env c2 id2 info d hfil
    simp [processItem, hfil]
  · intro parse after env c2 id2 info item hfil hf hd hdir hdl
    obtain ⟨v, hv⟩ := Option.isSome_iff_exists.mp hd
    simp [processItem, hfil, hf, hv, hdir, hdl]

/-- C6 witness: a concrete force-on queue and a concrete double
`add_if_missing`. -/
theorem force_bypasses_exclusion_witness :
    buildItems true ["A"] none [("A", ⟨"uA", none⟩)]
      = [("A", ⟨"uA", none⟩)] ∧
    (Cache.add_if_missing (Cache.add_if_missing [] "A" "d1") "A" "d2")
      = Cache.add_if_missing [] "A" "d1" := by
  have h := force_bypasses_exclusion ["A"] none [("A", ⟨"uA", none⟩)]
    ([] : Cache) "A" "d1" "d2"
  exact ⟨by rw [h.1]; decide, h.2.1⟩

/-- Any item that is not stopped by the `--after` filter reaches the
metadata fetch, whatever the fetch outcome and mode. -/
theorem metaFetch_mem_of_not_filtered (parse : String → Option Int)
    (after : Option Int) (dryRun : Bool) (env : ItemEnv) (c : Cache)
    (id : String) (info : TrackInfo)
    (hfil : is_before_filter parse after info.purchased = none) :
    Ev.metaFetch ∈ (processItem parse after dryRun env c id info).events := by
  unfold processItem
  rw [hfil]
  cases env.fetch with
  | error => simp
  | notFound => simp
  | found item =>
    by_cases hd : item.downloads.isNone = true <;>
      by_cases hdry : dryRun = true <;>
      by_cases hp : env.resultsPoisoned = true <;>
      by_cases hc : env.createDirOk = false <;>
      by_cases hl : env.downloadOk = false <;>
      simp [hd, hdry, hp, hc, hl]

/-- C3: an entry whose purchase date exists, parses, and is strictly
earlier than the configured `--after` cutoff produces exactly one
`add_if_missing` cache record tagged as the filter skip, with no
metadata fetch and no content transfer; undated entries are never
date-filtered; and date-early entries are still enqueued (queue
construction ignores dates). -/
theorem after_filter_skip (parse : String → Option Int) (a d : Int)
    (s : String) (dryRun : Bool) (env : ItemEnv) (c : Cache) (id : String)
    (info : TrackInfo) (hp : info.purchased = some s)
    (hparse : parse s = some d) (hlt : d < a) :
    (processItem parse (some a) dryRun env c id info).events
        = [Ev.cacheAddIfMissing id "Skipped (--after filter)"] ∧
    (processItem parse (some a) dryRun env c id info).cache
        = Cache.add_if_missing c id "Skipped (--after filter)" ∧
    Ev.metaFetch ∉ (processItem parse (some a) dryRun env c id info).events ∧
    Ev.download ∉ (processItem parse (some a) dryRun env c id info).events ∧
    (∀ after2 : Option Int, is_before_filter parse after2 none = none) ∧
    (∀ cc urls, (id, info) ∈ urls → cc.contains id = false →
      urls.length ≤ USIZE_MAX → (id, info) ∈ buildItems false cc none urls) := by
  have hfil : is_before_filter parse (some a) info.purchased = some d := by
    simp [is_before_filter, hp, hparse, hlt]
  refine ⟨by simp [processItem, hfil], by simp [processItem, hfil],
    by simp [processItem, hfil], by simp [processItem, hfil], ?_, ?_⟩
  · intro after2
    cases after2 <;> simp [is_before_filter]
  · intro cc urls hmem hcc hlen
    unfold buildItems
    rw [List.take_of_length_le
      (le_trans (List.length_filter_le _ _) (by simpa using hlen))]
    exact List.mem_filter.mpr ⟨hmem, by simpa using hcc⟩

/-- C3 witness: a concrete early-dated entry is skip-recorded. -/
theorem after_filter_skip_witness :
    (processItem (fun _ => some (5 : Int)) (some 10) false
        ⟨FetchResult.error, true, true, false⟩ [] "A" ⟨"u", some "p"⟩).events
      = [Ev.cacheAddIfMissing "A" "Skipped (--after filter)"] :=
  (after_filter_skip (fun _ => some (5 : Int)) 10 5 "p" false
    ⟨FetchResult.error, true, true, false⟩ [] "A" ⟨"u", some "p"⟩ rfl rfl
    (by decide)).1

/-- C10: an entry whose purchase-date string fails to parse is treated
exactly like an undated entry: the `--after` filter never fires on it
and it proceeds to the metadata fetch. -/
theorem unparsable_date_treated_as_undated (parse : String → Option Int)
    (after : Option Int) (dryRun : Bool) (env : ItemEnv) (c : Cache)
    (id url s : String) (hparse : parse s = none) :
    is_before_filter parse after (some s) = none ∧
    processItem parse after dryRun env c id ⟨url, some s⟩
      = processItem parse after dryRun env c id ⟨url, none⟩ ∧
    Ev.metaFetch
      ∈ (processItem parse after dryRun env c id ⟨url, some s⟩).events := by
  have h1 : is_before_filter parse after (some s) = none := by
    cases after <;> simp [is_before_filter, hparse]
  have h2 : is_before_filter parse after (none : Option String) = none := by
    cases after <;> simp [is_before_filter]
  refine ⟨h1, ?_, metaFetch_mem_of_not_filtered _ _ _ _ _ _ _ h1⟩
  unfold processItem
  rw [show ((⟨url, some s⟩ : TrackInfo).purchased) = some s from rfl,
    show ((⟨url, none⟩ : TrackInfo).purchased) = none from rfl, h1, h2]

/-- C10 witness: a concrete entry with an unparsable date behaves as
undated. -/
theorem unparsable_date_treated_as_undated_witness :
    processItem (fun _ => none) (some 10) false
        ⟨FetchResult.error, true, true, false⟩ [] "A" ⟨"u", some "bad"⟩
      = processItem (fun _ => none) (some 10) false
          ⟨FetchResult.error, true, true, false⟩ [] "A" ⟨"u", none⟩ :=
  (unparsable_date_treated_as_undated (fun _ => none) (some 10) false
    ⟨FetchResult.error, true, true, false⟩ [] "A" "u" "bad" rfl).2.1

/-- C1 counterexample: in dry-run mode a date-filtered item still gets a
cache record written (the `--after` skip record), so it is false that no
cache record is written for a dry-run item regardless of branch. -/
theorem dry_run_cache_write_cex :
    Ev.cacheAddIfMissing "A" "Skipped (--after filter)"
        ∈ (processItem (fun _ => some 0) (some 10) true
            ⟨FetchResult.error, true, true, false⟩ [] "A" ⟨"u", some "p"⟩).events ∧
    (processItem (fun _ => some 0) (some 10) true
        ⟨FetchResult.error, true, true, false⟩ [] "A" ⟨"u", some "p"⟩).cache
      = [("A", "Skipped (--after filter)")] := by decide

/-- C1 (amended): in dry-run mode no directory-creation and no
content-transfer call ever occurs, the metadata fetch still occurs for
every item that is not date-filtered, and an item that reaches the
dry-run branch (found, with downloads) writes no cache record; the
date-filtered, not-found and no-downloads branches still write their
cache records even in dry-run mode. -/
theorem dry_run_no_fs_or_success_cache (parse : String → Option Int)
    (after : Option Int) (env : ItemEnv) (c : Cache) (id : String)
    (info : TrackInfo) :
    Ev.createDir ∉ (processItem parse after true env c id info).events ∧
    Ev.download ∉ (processItem parse after true env c id info).events ∧
    (is_before_filter parse after info.purchased = none →
      Ev.metaFetch ∈ (processItem parse after true env c id info).events) ∧
    (∀ item, is_before_filter parse after info.purchased = none →
      env.fetch = FetchResult.found item → item.downloads.isSome = true →
      (processItem parse after true env c id info).cache = c) := by
  refine ⟨?_, ?_, fun h => metaFetch_mem_of_not_filtered _ _ _ _ _ _ _ h, ?_⟩
  · unfold processItem
    cases hfil : is_before_filter parse after info.purchased with
    | some d => simp
    | none =>
      cases env.fetch with
      | error => simp
      | notFound => simp
      | found item =>
        by_cases hd : item.downloads.isNone = true <;>
          by_cases hpo : env.resultsPoisoned = true <;>
          simp [hd, hpo]
  · unfold processItem
    cases hfil : is_before_filter parse after info.purchased with
    | some d => simp
    | none =>
      cases env.fetch with
      | error => simp
      | notFound => simp
      | found item =>
        by_cases hd : item.downloads.isNone = true <;>
          by_cases hpo : env.resultsPoisoned = true <;>
          simp [hd, hpo]
  · intro item hfil hf hd
    obtain ⟨v, hv⟩ := Option.isSome_iff_exists.mp hd
    by_cases hpo : env.resultsPoisoned = true <;>
      simp [processItem, hfil, hf, hv, hpo]

/-- C1 (amended) witness: a concrete dry-run item that reaches the
dry-run branch leaves the cache empty and never touches the
filesystem. -/
theorem dry_run_no_fs_or_success_cache_witness :
    Ev.createDir ∉ (processItem (fun _ => none) none true
        ⟨FetchResult.found ⟨"t", "ar", "2020", false, some [("flac", "dl")]⟩,
          true, true, false⟩ [] "A" ⟨"u", none⟩).events ∧
    (processItem (fun _ => none) none true
        ⟨FetchResult.found ⟨"t", "ar", "2020", false, some [("flac", "dl")]⟩,
          true, true, false⟩ [] "A" ⟨"u", none⟩).cache = [] :=
  ⟨(dry_run_no_fs_or_success_cache (fun _ => none) none
      ⟨FetchResult.found ⟨"t", "ar", "2020", false, some [("flac", "dl")]⟩,
        true, true, false⟩ [] "A" ⟨"u", none⟩).1,
    (dry_run_no_fs_or_success_cache (fun _ => none) none
      ⟨FetchResult.found ⟨"t", "ar", "2020", false, some [("flac", "dl")]⟩,
        true, true, false⟩ [] "A" ⟨"u", none⟩).2.2.2
      ⟨"t", "ar", "2020", false, some [("flac", "dl")]⟩ rfl rfl rfl⟩

/-- C5 counterexample: on a transient metadata-fetch error the dispatch
loop logs nothing — the per-item trace is just the fetch itself, with no
warning event — so the claim that the worker logs a warning is false. -/
theorem fetch_error_no_warning_cex :
    (processItem (fun _ => none) none false
        ⟨FetchResult.error, true, true, false⟩ [] "A" ⟨"u", none⟩).events
      = [Ev.metaFetch] ∧
    Ev.warnLog ∉ (processItem (fun _ => none) none false
        ⟨FetchResult.error, true, true, false⟩ [] "A" ⟨"u", none⟩).events := by
  decide

/-- C5 (amended): on a transient metadata-fetch error the worker
silently discards the item — the dispatch loop logs no warning — writes
no cache record, attempts no retry within the run (exactly one fetch
event), and proceeds to the next queued item. -/
theorem fetch_error_silent_skip (parse : String → Option Int)
    (after : Option Int) (dryRun : Bool) (env : ItemEnv) (c : Cache)
    (id : String) (info : TrackInfo)
    (rest : List (String × TrackInfo × ItemEnv))
    (hfil : is_before_filter parse after info.purchased = none)
    (hf : env.fetch = FetchResult.error) :
    processItem parse after dryRun env c id info
      = ⟨[Ev.metaFetch], c, [], false⟩ ∧
    (runWorker parse after dryRun c ((id, info, env) :: rest)).events
      = Ev.metaFetch :: (runWorker parse after dryRun c rest).events ∧
    (runWorker parse after dryRun c ((id, info, env) :: rest)).cache
      = (runWorker parse after dryRun c rest).cache ∧
    (runWorker parse after dryRun c ((id, info, env) :: rest)).panicked
      = (runWorker parse after dryRun c rest).panicked := by
  have h1 : processItem parse after dryRun env c id info
      = ⟨[Ev.metaFetch], c, [], false⟩ := by
    simp [processItem, hfil, hf]
  refine ⟨h1, ?_, ?_, ?_⟩ <;> simp [runWorker, h1]

/-- C5 (amended) witness at a concrete erroring fetch. -/
theorem fetch_error_silent_skip_witness :
    processItem (fun _ => none) none false
        ⟨FetchResult.error, true, true, false⟩ [] "A" ⟨"u", none⟩
      = ⟨[Ev.metaFetch], [], [], false⟩ :=
  (fetch_error_silent_skip (fun _ => none) none false
    ⟨FetchResult.error, true, true, false⟩ [] "A" ⟨"u", none⟩ [] rfl rfl).1

/-- C7: at startup, an output root that exists but is not a directory is
fatal before any setup step runs (no cache opened, no queue built); a
missing root is created; an existing directory is used as-is with no
creation call. -/
theorem output_root_check :
    setup (some false) = (true, []) ∧
    SetupStep.buildQueue ∉ (setup (some false)).2 ∧
    SetupStep.openCache ∉ (setup (some false)).2 ∧
    setup none = (false, [SetupStep.createRootDir, SetupStep.openCache,
      SetupStep.listPurchases, SetupStep.buildQueue]) ∧
    setup (some true) = (false, [SetupStep.openCache,
      SetupStep.listPurchases, SetupStep.buildQueue]) ∧
    SetupStep.createRootDir ∉ (setup (some true)).2 := by
  decide

/-- C8: a worker that reaches the dry-run branch while the Results
Collector lock is poisoned panics: the step reports a panic, pushes no
result line, and the loop of that worker stops dead without touching the
remaining queue items. -/
theorem poisoned_results_lock_panics (parse : String → Option Int)
    (after : Option Int) (env : ItemEnv) (c : Cache) (id : String)
    (info : TrackInfo) (item : DigitalItem)
    (rest : List (String × TrackInfo × ItemEnv))
    (hfil : is_before_filter parse after info.purchased = none)
    (hf : env.fetch = FetchResult.found item)
    (hd : item.downloads.isSome = true)
    (hpois : env.resultsPoisoned = true) :
    (processItem parse after true env c id info).panicked = true ∧
    (processItem parse after true env c id info).dryLines = [] ∧
    runWorker parse after true c ((id, info, env) :: rest)
      = ⟨[Ev.metaFetch], c, [], true⟩ := by
  obtain ⟨v, hv⟩ := Option.isSome_iff_exists.mp hd
  have h1 : processItem parse after true env c id info
      = ⟨[Ev.metaFetch], c, [], true⟩ := by
    simp [processItem, hfil, hf, hv, hpois]
  exact ⟨by rw [h1], by rw [h1], by simp [runWorker, h1]⟩

/-- C8 witness: a concrete poisoned dry-run step panics and the loop
halts. -/
theorem poisoned_results_lock_panics_witness :
    (processItem (fun _ => none) none true
        ⟨FetchResult.found ⟨"t", "ar", "2020", false, some [("flac", "dl")]⟩,
          true, true, true⟩ [] "A" ⟨"u", none⟩).panicked = true :=
  (poisoned_results_lock_panics (fun _ => none) none
    ⟨FetchResult.found ⟨"t", "ar", "2020", false, some [("flac", "dl")]⟩,
      true, true, true⟩ [] "A" ⟨"u", none⟩
    ⟨"t", "ar", "2020", false, some [("flac", "dl")]⟩ [] rfl rfl rfl rfl).1

/-- A run against an empty queue delivers nothing: every caller is told
"empty" immediately. -/
theorem runCalls_empty_eq_map (cs : List Nat) :
    runCalls cs ([] : List (String × TrackInfo))
      = cs.map (fun caller => (caller, none)) := by
  induction cs with
  | nil => rfl
  | cons cl cls ih => simp [runCalls, getWork, ih]

/-- No item is delivered from an empty queue. -/
theorem runCalls_empty_no_delivery (cs : List Nat) :
    (runCalls cs ([] : List (String × TrackInfo))).filterMap Prod.snd
      = [] := by
  induction cs with
  | nil => rfl
  | cons cl cls ih => simp [runCalls, getWork, ih]

/-- C9: for any queue contents and any interleaving of enough `get_work`
calls by any callers, the items delivered across all calls are exactly
the queue contents, in queue order — each element to exactly one caller
exactly once, none duplicated, none dropped — and a caller finding the
queue empty is told so immediately. -/
theorem workqueue_exactly_once (q : List (String × TrackInfo))
    (callers : List Nat) (h : q.length ≤ callers.length) :
    (runCalls callers q).filterMap Prod.snd = q ∧
    (∀ cs : List Nat, runCalls cs ([] : List (String × TrackInfo))
        = cs.map (fun caller => (caller, none))) ∧
    getWork ([] : List (String × TrackInfo)) = (none, []) := by
  refine ⟨?_, runCalls_empty_eq_map, rfl⟩
  induction callers generalizing q with
  | nil =>
    cases q with
    | nil => rfl
    | cons x xs => simp at h
  | cons cl cls ih =>
    cases q with
    | nil => exact runCalls_empty_no_delivery (cl :: cls)
    | cons x xs =>
      have := ih xs (by simpa using Nat.le_of_succ_le_succ (by simpa using h))
      simp [runCalls, getWork, this]

/-- C9 witness: three callers drain a two-element queue exactly. -/
theorem workqueue_exactly_once_witness :
    (runCalls [0, 1, 2]
        ([("A", ⟨"uA", none⟩), ("B", ⟨"uB", none⟩)] :
          List (String × TrackInfo))).filterMap Prod.snd
      = ([("A", ⟨"uA", none⟩), ("B", ⟨"uB", none⟩)] :
          List (String × TrackInfo)) :=
  (workqueue_exactly_once
    ([("A", ⟨"uA", none⟩), ("B", ⟨"uB", none⟩)] : List (String × TrackInfo))
    [0, 1, 2] (by decide)).1

end Bandsnatch
